import Mathlib

/-!
Verification development for a NASDAQ ITCH 5.0 market-data capture library.

The development shallowly embeds the three core subsystems:
  - the protocol constants and byte-swap primitives together with the
    zero-copy frame decoder of the ITCHParser class,
  - the Vyukov-style bounded MPMC ring queue,
  - the asynchronous persistence engine of the AsyncLogger class.

Machine integers are modelled as natural numbers; a raw frame is a function
from byte offsets to byte values (reads take the value modulo 256, matching
a byte load).  All packed struct sizes are computed exactly as the C++
compiler computes sizeof over the packed field lists.
-/

namespace fast_market

/-- Byte number i (little-endian position) of a natural number. -/
def byteAt (x i : ℕ) : ℕ := x / 256 ^ i % 256

/-- Model of the builtin 16-bit byte swap applied by ntoh16 to a uint16_t. -/
def ntoh16 (x : ℕ) : ℕ := byteAt x 0 * 256 + byteAt x 1

/-- Model of the builtin 32-bit byte swap applied by ntoh32 to a uint32_t. -/
def ntoh32 (x : ℕ) : ℕ :=
  byteAt x 0 * 256 ^ 3 + byteAt x 1 * 256 ^ 2 + byteAt x 2 * 256 + byteAt x 3

/-- Model of the builtin 64-bit byte swap applied by ntoh64 to a uint64_t. -/
def ntoh64 (x : ℕ) : ℕ :=
  byteAt x 0 * 256 ^ 7 + byteAt x 1 * 256 ^ 6 + byteAt x 2 * 256 ^ 5 +
  byteAt x 3 * 256 ^ 4 + byteAt x 4 * 256 ^ 3 + byteAt x 5 * 256 ^ 2 +
  byteAt x 6 * 256 + byteAt x 7

/-- Fixed-point price conversion: the source divides by 10000.0 in double
precision; at the inputs considered here the quotient is exactly
representable, so the rational quotient is an exact model. -/
def price_to_double (price : ℕ) : ℚ := (price : ℚ) / 10000

/-- Length of the effective stock symbol: the while loop of get_stock_symbol,
which starts at len = 8 and decrements while the previous character is a
space (byte 32). -/
def symbolLen (stock : List ℕ) : ℕ → ℕ
  | 0 => 0
  | n + 1 => if stock.getD n 0 = 32 then symbolLen stock n else n + 1

/-- Model of get_stock_symbol on an 8-byte symbol field. -/
def get_stock_symbol (stock : List ℕ) : List ℕ := stock.take (symbolLen stock 8)

/-- Modelled from the spec: the effective symbol is the longest left-aligned
prefix of the 8-byte field whose final character is not a space. -/
def spec_symbol (s : List ℕ) : List ℕ :=
  s.take (Nat.findGreatest (fun k => s.getD (k - 1) 0 ≠ 32) 8)

/- The nine message-type tags the decoder recognises, as byte values of the
MessageType enumerators. -/
namespace MessageType

def ADD_ORDER : ℕ := 65
def EXECUTE_ORDER : ℕ := 69
def EXECUTE_ORDER_WITH_PRICE : ℕ := 67
def ORDER_CANCEL : ℕ := 88
def ORDER_DELETE : ℕ := 68
def ORDER_REPLACE : ℕ := 85
def TRADE : ℕ := 80
def SYSTEM_EVENT : ℕ := 83
def STOCK_DIRECTORY : ℕ := 82

end MessageType

/-- The list of tags the parser dispatch recognises. -/
def knownTags : List ℕ :=
  [MessageType.ADD_ORDER, MessageType.EXECUTE_ORDER,
   MessageType.EXECUTE_ORDER_WITH_PRICE, MessageType.ORDER_CANCEL,
   MessageType.ORDER_DELETE, MessageType.ORDER_REPLACE, MessageType.TRADE,
   MessageType.SYSTEM_EVENT, MessageType.STOCK_DIRECTORY]

/-- sizeof(ITCHMessageHeader) for the packed struct: uint8_t message_type,
uint16_t stock_locate, uint16_t tracking_number, uint64_t timestamp. -/
def sizeofITCHMessageHeader : ℕ := 1 + 2 + 2 + 8

/-- sizeof(AddOrderMessage): header, uint64_t order_reference_number,
uint8_t buy_sell_indicator, uint32_t shares, char stock[8], uint32_t price. -/
def sizeofAddOrderMessage : ℕ := sizeofITCHMessageHeader + 8 + 1 + 4 + 8 + 4

/-- sizeof(ExecuteOrderMessage). -/
def sizeofExecuteOrderMessage : ℕ := sizeofITCHMessageHeader + 8 + 4 + 8

/-- sizeof(ExecuteOrderWithPriceMessage). -/
def sizeofExecuteOrderWithPriceMessage : ℕ :=
  sizeofITCHMessageHeader + 8 + 4 + 8 + 1 + 4

/-- sizeof(OrderCancelMessage). -/
def sizeofOrderCancelMessage : ℕ := sizeofITCHMessageHeader + 8 + 4

/-- sizeof(OrderDeleteMessage). -/
def sizeofOrderDeleteMessage : ℕ := sizeofITCHMessageHeader + 8

/-- sizeof(OrderReplaceMessage). -/
def sizeofOrderReplaceMessage : ℕ := sizeofITCHMessageHeader + 8 + 8 + 4 + 4

/-- sizeof(TradeMessage). -/
def sizeofTradeMessage : ℕ := sizeofITCHMessageHeader + 8 + 1 + 4 + 8 + 4 + 8

/-- sizeof(SystemEventMessage). -/
def sizeofSystemEventMessage : ℕ := sizeofITCHMessageHeader + 1

/-- sizeof(StockDirectoryMessage). -/
def sizeofStockDirectoryMessage : ℕ :=
  sizeofITCHMessageHeader + 8 + 1 + 1 + 4 + 1 + 1 + 2 + 1 + 1 + 1 + 1 + 1 + 4 + 1

/-- Decoded common header of an ITCH message, host byte order. -/
structure ITCHMessageHeader where
  message_type : ℕ
  stock_locate : ℕ
  tracking_number : ℕ
  timestamp : ℕ
deriving DecidableEq, Repr

/-- Decoded Add Order message (type A). -/
structure AddOrderMessage where
  header : ITCHMessageHeader
  order_reference_number : ℕ
  buy_sell_indicator : ℕ
  shares : ℕ
  stock : List ℕ
  price : ℕ
deriving DecidableEq, Repr

/-- Decoded Execute Order message (type E). -/
structure ExecuteOrderMessage where
  header : ITCHMessageHeader
  order_reference_number : ℕ
  executed_shares : ℕ
  match_number : ℕ
deriving DecidableEq, Repr

/-- Decoded Execute Order with Price message (type C). -/
structure ExecuteOrderWithPriceMessage where
  header : ITCHMessageHeader
  order_reference_number : ℕ
  executed_shares : ℕ
  match_number : ℕ
  printable : ℕ
  execution_price : ℕ
deriving DecidableEq, Repr

/-- Decoded Order Cancel message (type X). -/
structure OrderCancelMessage where
  header : ITCHMessageHeader
  order_reference_number : ℕ
  cancelled_shares : ℕ
deriving DecidableEq, Repr

/-- Decoded Order Delete message (type D). -/
structure OrderDeleteMessage where
  header : ITCHMessageHeader
  order_reference_number : ℕ
deriving DecidableEq, Repr

/-- Decoded Order Replace message (type U). -/
structure OrderReplaceMessage where
  header : ITCHMessageHeader
  original_order_reference_number : ℕ
  new_order_reference_number : ℕ
  shares : ℕ
  price : ℕ
deriving DecidableEq, Repr

/-- Decoded Trade message (type P). -/
structure TradeMessage where
  header : ITCHMessageHeader
  order_reference_number : ℕ
  buy_sell_indicator : ℕ
  shares : ℕ
  stock : List ℕ
  price : ℕ
  match_number : ℕ
deriving DecidableEq, Repr

/-- Decoded System Event message (type S). -/
structure SystemEventMessage where
  header : ITCHMessageHeader
  event_code : ℕ
deriving DecidableEq, Repr

/-- Decoded Stock Directory message (type R). -/
structure StockDirectoryMessage where
  header : ITCHMessageHeader
  stock : List ℕ
  market_category : ℕ
  financial_status_indicator : ℕ
  round_lot_size : ℕ
  round_lots_only : ℕ
  issue_classification : ℕ
  issue_sub_type : List ℕ
  authenticity : ℕ
  short_sale_threshold_indicator : ℕ
  ipo_flag : ℕ
  luld_reference_price_tier : ℕ
  etp_flag : ℕ
  etp_leverage_factor : ℕ
  inverse_indicator : ℕ
deriving DecidableEq, Repr

/-- The populated member of the ParsedMessage union. -/
inductive ParsedVariant
  | add_order : AddOrderMessage → ParsedVariant
  | execute_order : ExecuteOrderMessage → ParsedVariant
  | execute_with_price : ExecuteOrderWithPriceMessage → ParsedVariant
  | order_cancel : OrderCancelMessage → ParsedVariant
  | order_delete : OrderDeleteMessage → ParsedVariant
  | order_replace : OrderReplaceMessage → ParsedVariant
  | trade : TradeMessage → ParsedVariant
  | system_event : SystemEventMessage → ParsedVariant
  | stock_directory : StockDirectoryMessage → ParsedVariant
deriving DecidableEq, Repr

/-- Decoded tagged record: external type tag, the populated union member and
the rdtsc ingress stamp.  The stamp is supplied as an input to the model
since the hardware counter is an external source. -/
structure ParsedMessage where
  type : ℕ
  variant : ParsedVariant
  parse_timestamp_ns : ℕ
deriving DecidableEq, Repr

/-- Little-endian load of n bytes starting at a byte offset, modelling the
in-memory value of a packed multi-byte field on the little-endian host. -/
def readLE (data : ℕ → ℕ) (off : ℕ) : ℕ → ℕ
  | 0 => 0
  | n + 1 => readLE data (off + 1) n * 256 + data off % 256

/-- Read k bytes starting at a byte offset as a list (char array fields). -/
def readBytes (data : ℕ → ℕ) (off k : ℕ) : List ℕ :=
  (List.range k).map (fun i => data (off + i) % 256)

namespace ITCHParser

/-- Header decode shared by every parse_x helper: each field is loaded from
the wire struct and byte-swapped to host order (the type byte is copied). -/
def parseHeader (data : ℕ → ℕ) : ITCHMessageHeader :=
  { message_type := data 0 % 256
    stock_locate := ntoh16 (readLE data 1 2)
    tracking_number := ntoh16 (readLE data 3 2)
    timestamp := ntoh64 (readLE data 5 8) }

/-- Field decode of parse_add_order (offsets follow the packed layout). -/
def parse_add_order (data : ℕ → ℕ) : AddOrderMessage :=
  { header := parseHeader data
    order_reference_number := ntoh64 (readLE data 13 8)
    buy_sell_indicator := data 21 % 256
    shares := ntoh32 (readLE data 22 4)
    stock := readBytes data 26 8
    price := ntoh32 (readLE data 34 4) }

/-- Field decode of parse_execute_order. -/
def parse_execute_order (data : ℕ → ℕ) : ExecuteOrderMessage :=
  { header := parseHeader data
    order_reference_number := ntoh64 (readLE data 13 8)
    executed_shares := ntoh32 (readLE data 21 4)
    match_number := ntoh64 (readLE data 25 8) }

/-- Field decode of parse_execute_with_price. -/
def parse_execute_with_price (data : ℕ → ℕ) : ExecuteOrderWithPriceMessage :=
  { header := parseHeader data
    order_reference_number := ntoh64 (readLE data 13 8)
    executed_shares := ntoh32 (readLE data 21 4)
    match_number := ntoh64 (readLE data 25 8)
    printable := data 33 % 256
    execution_price := ntoh32 (readLE data 34 4) }

/-- Field decode of parse_order_cancel. -/
def parse_order_cancel (data : ℕ → ℕ) : OrderCancelMessage :=
  { header := parseHeader data
    order_reference_number := ntoh64 (readLE data 13 8)
    cancelled_shares := ntoh32 (readLE data 21 4) }

/-- Field decode of parse_order_delete. -/
def parse_order_delete (data : ℕ → ℕ) : OrderDeleteMessage :=
  { header := parseHeader data
    order_reference_number := ntoh64 (readLE data 13 8) }

/-- Field decode of parse_order_replace. -/
def parse_order_replace (data : ℕ → ℕ) : OrderReplaceMessage :=
  { header := parseHeader data
    original_order_reference_number := ntoh64 (readLE data 13 8)
    new_order_reference_number := ntoh64 (readLE data 21 8)
    shares := ntoh32 (readLE data 29 4)
    price := ntoh32 (readLE data 33 4) }

/-- Field decode of parse_trade. -/
def parse_trade (data : ℕ → ℕ) : TradeMessage :=
  { header := parseHeader data
    order_reference_number := ntoh64 (readLE data 13 8)
    buy_sell_indicator := data 21 % 256
    shares := ntoh32 (readLE data 22 4)
    stock := readBytes data 26 8
    price := ntoh32 (readLE data 34 4)
    match_number := ntoh64 (readLE data 38 8) }

/-- Field decode of parse_system_event. -/
def parse_system_event (data : ℕ → ℕ) : SystemEventMessage :=
  { header := parseHeader data
    event_code := data 13 % 256 }

/-- Field decode of parse_stock_directory. -/
def parse_stock_directory (data : ℕ → ℕ) : StockDirectoryMessage :=
  { header := parseHeader data
    stock := readBytes data 13 8
    market_category := data 21 % 256
    financial_status_indicator := data 22 % 256
    round_lot_size := ntoh32 (readLE data 23 4)
    round_lots_only := data 27 % 256
    issue_classification := data 28 % 256
    issue_sub_type := readBytes data 29 2
    authenticity := data 31 % 256
    short_sale_threshold_indicator := data 32 % 256
    ipo_flag := data 33 % 256
    luld_reference_price_tier := data 34 % 256
    etp_flag := data 35 % 256
    etp_leverage_factor := ntoh32 (readLE data 36 4)
    inverse_indicator := data 40 % 256 }

/-- Model of ITCHParser::parse.  The parser object carries no member state,
so the method is a pure function of the frame, the declared length and the
rdtsc stamp taken during field copy.  The dispatch mirrors the source: a
header-size guard, two hinted early tests for A and E, then the switch. -/
def parse (tsc : ℕ) (data : ℕ → ℕ) (length : ℕ) : Option ParsedMessage :=
  if length < sizeofITCHMessageHeader then none
  else
    let t := data 0 % 256
    if t = MessageType.ADD_ORDER then
      if length ≠ sizeofAddOrderMessage then none
      else some ⟨t, .add_order (parse_add_order data), tsc⟩
    else if t = MessageType.EXECUTE_ORDER then
      if length ≠ sizeofExecuteOrderMessage then none
      else some ⟨t, .execute_order (parse_execute_order data), tsc⟩
    else if t = MessageType.EXECUTE_ORDER_WITH_PRICE then
      if length = sizeofExecuteOrderWithPriceMessage then
        some ⟨t, .execute_with_price (parse_execute_with_price data), tsc⟩
      else none
    else if t = MessageType.ORDER_CANCEL then
      if length = sizeofOrderCancelMessage then
        some ⟨t, .order_cancel (parse_order_cancel data), tsc⟩
      else none
    else if t = MessageType.ORDER_DELETE then
      if length = sizeofOrderDeleteMessage then
        some ⟨t, .order_delete (parse_order_delete data), tsc⟩
      else none
    else if t = MessageType.ORDER_REPLACE then
      if length = sizeofOrderReplaceMessage then
        some ⟨t, .order_replace (parse_order_replace data), tsc⟩
      else none
    else if t = MessageType.TRADE then
      if length = sizeofTradeMessage then
        some ⟨t, .trade (parse_trade data), tsc⟩
      else none
    else if t = MessageType.SYSTEM_EVENT then
      if length = sizeofSystemEventMessage then
        some ⟨t, .system_event (parse_system_event data), tsc⟩
      else none
    else if t = MessageType.STOCK_DIRECTORY then
      if length = sizeofStockDirectoryMessage then
        some ⟨t, .stock_directory (parse_stock_directory data), tsc⟩
      else none
    else none

end ITCHParser

/-- Compile-time capacity check of MPMCQueue: the static_assert requires
(Capacity & (Capacity - 1)) == 0. -/
def capacity_static_assert (c : ℕ) : Bool := (c &&& (c - 1)) == 0

/-- State of an MPMCQueue of element type T.  The fixed arrays of slots and
per-slot sequence numbers are modelled as functions from slot index (the
operations only ever access indices below the capacity); head and tail are
the two global counters.  The size_t counters never approach 2^64 in the
bounded scenarios considered here, so they are modelled as exact naturals. -/
structure MPMCQueue (T : Type) where
  head : ℕ
  tail : ℕ
  sequences : ℕ → ℕ
  buffer : ℕ → T

/-- Model of the MPMCQueue constructor: head = tail = 0 and every sequence
number initialised to its slot index. -/
def MPMCQueue.new (T : Type) [Inhabited T] : MPMCQueue T :=
  { head := 0, tail := 0, sequences := fun i => i, buffer := fun _ => default }

namespace MPMCQueue

/-- Sequential model of try_enqueue for a queue of capacity C.  With a single
thread the compare-exchange always succeeds (pos was just loaded from head),
so one loop iteration decides the call: diff = 0 claims the slot, writes the
item and release-stores pos + 1; diff < 0 reports full.  With diff > 0 the
source reloads head, sees the same position and spins forever; that branch is
modelled as divergence (none). -/
def try_enqueue (C : ℕ) (q : MPMCQueue T) (item : T) :
    Option (Bool × MPMCQueue T) :=
  let pos := q.head
  let index := pos &&& (C - 1)
  let seq := q.sequences index
  let diff : ℤ := (seq : ℤ) - (pos : ℤ)
  if diff = 0 then
    some (true,
      { q with head := pos + 1,
               buffer := fun i => if i = index then item else q.buffer i,
               sequences := fun i => if i = index then pos + 1 else q.sequences i })
  else if diff < 0 then some (false, q)
  else none

/-- Sequential model of try_dequeue: the target sequence is pos + 1; on
success the slot is read and its sequence release-stored as pos + C.  The
result carries the read item on success, none-item on empty, and outer none
for the sequentially unreachable spin branch. -/
def try_dequeue (C : ℕ) (q : MPMCQueue T) [Inhabited T] :
    Option (Option T × MPMCQueue T) :=
  let pos := q.tail
  let index := pos &&& (C - 1)
  let seq := q.sequences index
  let diff : ℤ := (seq : ℤ) - ((pos : ℤ) + 1)
  if diff = 0 then
    some (some (q.buffer index),
      { q with tail := pos + 1,
               sequences := fun i => if i = index then pos + C else q.sequences i })
  else if diff < 0 then some (none, q)
  else none

/-- Run try_enqueue over a list of items, collecting the returned booleans. -/
def enqueueList (C : ℕ) : List T → MPMCQueue T → Option (List Bool × MPMCQueue T)
  | [], q => some ([], q)
  | x :: xs, q =>
    match try_enqueue C q x with
    | none => none
    | some (b, q1) =>
      match enqueueList C xs q1 with
      | none => none
      | some (bs, q2) => some (b :: bs, q2)

/-- Run try_dequeue n times, collecting the outcomes in order. -/
def dequeueN (C : ℕ) [Inhabited T] : ℕ → MPMCQueue T → Option (List (Option T) × MPMCQueue T)
  | 0, q => some ([], q)
  | n + 1, q =>
    match try_dequeue C q with
    | none => none
    | some (r, q1) =>
      match dequeueN C n q1 with
      | none => none
      | some (rs, q2) => some (r :: rs, q2)

/-- Queue state reached from a fresh queue after the items of zs have been
enqueued in order (and nothing dequeued): head has advanced to the number of
items, each filled slot i holds item i and carries sequence number i + 1. -/
def enqState (T : Type) [Inhabited T] (zs : List T) : MPMCQueue T :=
  { head := zs.length, tail := 0,
    sequences := fun i => if i < zs.length then i + 1 else i,
    buffer := fun i => zs.getD i default }

/-- Queue state of a queue of capacity C filled with the items of xs after t
of them have been dequeued: consumed slots carry sequence i + C, the rest
still i + 1. -/
def deqState (C : ℕ) (T : Type) [Inhabited T] (xs : List T) (t : ℕ) :
    MPMCQueue T :=
  { head := xs.length, tail := t,
    sequences := fun i =>
      if i < t then i + C else if i < xs.length then i + 1 else i,
    buffer := fun i => xs.getD i default }

end MPMCQueue

namespace AsyncLogger

/-- BUFFER_SIZE of the AsyncLogger write buffer (4 MiB). -/
def BUFFER_SIZE : ℕ := 4096 * 1024

/-- ALIGNMENT block size used by the O_DIRECT flush rounding. -/
def ALIGNMENT : ℕ := 4096

/-- Write mode chosen at construction. -/
inductive WriteMode
  | MMAP
  | DIRECT
  | BUFFERED
deriving DecidableEq, Repr

/-- Writer-side view of a ParsedMessage: the external type byte and the byte
image of the variant union (serialize_message copies sizeof(variant) raw
bytes starting at the union, so only the byte image matters here), plus the
ingress stamp. -/
structure MessageImage where
  type : ℕ
  payload : ℕ → ℕ
  parse_timestamp_ns : ℕ

/-- Model of AsyncLogger::get_message_size: the per-tag width table; any
unhandled type byte falls to the default case and yields 0. -/
def get_message_size (msg : MessageImage) : ℕ :=
  if msg.type = MessageType.ADD_ORDER then sizeofAddOrderMessage
  else if msg.type = MessageType.EXECUTE_ORDER then sizeofExecuteOrderMessage
  else if msg.type = MessageType.EXECUTE_ORDER_WITH_PRICE then
    sizeofExecuteOrderWithPriceMessage
  else if msg.type = MessageType.ORDER_CANCEL then sizeofOrderCancelMessage
  else if msg.type = MessageType.ORDER_DELETE then sizeofOrderDeleteMessage
  else if msg.type = MessageType.ORDER_REPLACE then sizeofOrderReplaceMessage
  else if msg.type = MessageType.TRADE then sizeofTradeMessage
  else if msg.type = MessageType.SYSTEM_EVENT then sizeofSystemEventMessage
  else if msg.type = MessageType.STOCK_DIRECTORY then sizeofStockDirectoryMessage
  else 0

/-- Model of AsyncLogger::serialize_message: the switch memcpy of the union
member for the nine handled types copies sizeof(variant) bytes from the
union start; a message with any other type byte matches no case and writes
nothing. -/
def serialize_message (msg : MessageImage) : List ℕ :=
  if msg.type = MessageType.ADD_ORDER then
    readBytes msg.payload 0 sizeofAddOrderMessage
  else if msg.type = MessageType.EXECUTE_ORDER then
    readBytes msg.payload 0 sizeofExecuteOrderMessage
  else if msg.type = MessageType.EXECUTE_ORDER_WITH_PRICE then
    readBytes msg.payload 0 sizeofExecuteOrderWithPriceMessage
  else if msg.type = MessageType.ORDER_CANCEL then
    readBytes msg.payload 0 sizeofOrderCancelMessage
  else if msg.type = MessageType.ORDER_DELETE then
    readBytes msg.payload 0 sizeofOrderDeleteMessage
  else if msg.type = MessageType.ORDER_REPLACE then
    readBytes msg.payload 0 sizeofOrderReplaceMessage
  else if msg.type = MessageType.TRADE then
    readBytes msg.payload 0 sizeofTradeMessage
  else if msg.type = MessageType.SYSTEM_EVENT then
    readBytes msg.payload 0 sizeofSystemEventMessage
  else if msg.type = MessageType.STOCK_DIRECTORY then
    readBytes msg.payload 0 sizeofStockDirectoryMessage
  else []

/-- Overwrite the bytes of a mapped region starting at an offset. -/
def writeBytesAt (f : ℕ → ℕ) (off : ℕ) (bs : List ℕ) : ℕ → ℕ :=
  fun i => if off ≤ i ∧ i < off + bs.length then bs.getD (i - off) 0 else f i

/-- Writer-side state of the AsyncLogger: the bytes appended to the file
descriptor so far, the accumulation buffer contents (whose length is the
buffer_offset member), the mapped region and its size, and total_written.
The DIRECT alignment filler bytes past the true contents are undefined in
the source and modelled as zero. -/
structure LoggerState where
  write_mode : WriteMode
  file : List ℕ
  write_buffer : List ℕ
  mmap_data : ℕ → ℕ
  mmap_size : ℕ
  total_written : ℕ

/-- Model of AsyncLogger::flush.  A no-op on an empty buffer; MMAP resets
the offset only; DIRECT rounds the write length up to ALIGNMENT and writes
filler past the contents; BUFFERED writes exactly the buffered bytes.  The
write is assumed to succeed, so total_written advances by buffer_offset. -/
def flush (st : LoggerState) : LoggerState :=
  if st.write_buffer.length = 0 then st
  else
    match st.write_mode with
    | WriteMode.MMAP => { st with write_buffer := [] }
    | WriteMode.DIRECT =>
      let padded := ((st.write_buffer.length + ALIGNMENT - 1) / ALIGNMENT) * ALIGNMENT
      { st with
        file := st.file ++ st.write_buffer ++
                List.replicate (padded - st.write_buffer.length) 0,
        total_written := st.total_written + st.write_buffer.length,
        write_buffer := [] }
    | WriteMode.BUFFERED =>
      { st with
        file := st.file ++ st.write_buffer,
        total_written := st.total_written + st.write_buffer.length,
        write_buffer := [] }

/-- Model of AsyncLogger::expand_mmap: double the mapped size. -/
def expand_mmap (st : LoggerState) : LoggerState :=
  { st with mmap_size := st.mmap_size * 2 }

/-- Model of AsyncLogger::write_message.  MMAP: serialise into the region at
offset total_written (expanding first when the record would overflow) and
advance total_written; otherwise: flush when the record would overflow the
buffer, then serialise into the buffer and advance buffer_offset. -/
def write_message (st : LoggerState) (msg : MessageImage) : LoggerState :=
  let msg_size := get_message_size msg
  if st.write_mode = WriteMode.MMAP then
    let st1 := if st.total_written + msg_size > st.mmap_size then expand_mmap st else st
    { st1 with
      mmap_data := writeBytesAt st1.mmap_data st1.total_written (serialize_message msg),
      total_written := st1.total_written + msg_size }
  else
    let st1 := if st.write_buffer.length + msg_size > BUFFER_SIZE then flush st else st
    { st1 with write_buffer := st1.write_buffer ++ serialize_message msg }

/-- Fresh writer state right after start() in a non-MMAP mode. -/
def initState (mode : WriteMode) : LoggerState :=
  { write_mode := mode, file := [], write_buffer := [],
    mmap_data := fun _ => 0, mmap_size := 0, total_written := 0 }

/-- The worker drains queued records in FIFO order and stop() flushes what
remains in the buffer: the file produced by a BUFFERED run over a record
sequence is the final flush of the fold of write_message over it. -/
def writer_run (msgs : List MessageImage) : LoggerState :=
  flush (msgs.foldl write_message (initState WriteMode.BUFFERED))

/-- Walk of the on-disk format by a consumer: read the first byte of each
record, look its width up in the per-tag table and advance by that width,
collecting the tags.  Fuel bounds the number of records read. -/
def fileTags : ℕ → List ℕ → List ℕ
  | 0, _ => []
  | _ + 1, [] => []
  | fuel + 1, b :: rest =>
    let width := get_message_size ⟨b, fun _ => 0, 0⟩
    if width = 0 then []
    else b :: fileTags fuel ((b :: rest).drop width)

/-- An AddOrder record as emitted by the demo generator, viewed as its byte
image: type byte A with a constant payload (the first union byte is the
header's own message_type, which for a populated AddOrder record is A). -/
def mkA : MessageImage := ⟨MessageType.ADD_ORDER, fun _ => 65, 0⟩

/-- A Trade record as emitted by the demo generator, viewed as its byte
image: type byte P, first union byte P. -/
def mkP : MessageImage := ⟨MessageType.TRADE, fun _ => 80, 0⟩

/-- 2 n records alternating AddOrder and Trade, as enqueued by the
persist-and-truncate scenario. -/
def demoMsgs : ℕ → List MessageImage
  | 0 => []
  | n + 1 => mkA :: mkP :: demoMsgs n

/-- The expected tag walk of the produced file: A, P repeated n times. -/
def demoTags : ℕ → List ℕ
  | 0 => []
  | n + 1 => 65 :: 80 :: demoTags n

end AsyncLogger

/-- A frame holding only a tag byte, every other byte zero. -/
def tagOnly (t : ℕ) : ℕ → ℕ := fun i => if i = 0 then t else 0

/-- The AddOrder test frame of the add-order round-trip scenario, with every
numeric field big-endian: stock_locate 123, tracking_number 456, timestamp
1234567890, order_reference_number 999999, buy_sell_indicator B (66),
shares 100, stock AAPL padded with four spaces, price 1500000. -/
def frameA : List ℕ :=
  [65, 0, 123, 1, 200, 0, 0, 0, 0, 73, 150, 2, 210,
   0, 0, 0, 0, 0, 15, 66, 63, 66, 0, 0, 0, 100,
   65, 65, 80, 76, 32, 32, 32, 32, 0, 22, 227, 96]

lemma ntoh16_bytes (b0 b1 : ℕ) (h0 : b0 < 256) (h1 : b1 < 256) :
    ntoh16 (b1 * 256 + b0) = b0 * 256 + b1 := by
  unfold ntoh16 byteAt
  norm_num
  omega

lemma ntoh32_bytes (b0 b1 b2 b3 : ℕ) (h0 : b0 < 256) (h1 : b1 < 256) (h2 : b2 < 256)
    (h3 : b3 < 256) :
    ntoh32 (b3 * 256 ^ 3 + b2 * 256 ^ 2 + b1 * 256 + b0) =
      b0 * 256 ^ 3 + b1 * 256 ^ 2 + b2 * 256 + b3 := by
  unfold ntoh32 byteAt
  norm_num
  omega

lemma ntoh64_bytes (b0 b1 b2 b3 b4 b5 b6 b7 : ℕ) (h0 : b0 < 256) (h1 : b1 < 256)
    (h2 : b2 < 256) (h3 : b3 < 256) (h4 : b4 < 256) (h5 : b5 < 256) (h6 : b6 < 256)
    (h7 : b7 < 256) :
    ntoh64 (b7 * 256 ^ 7 + b6 * 256 ^ 6 + b5 * 256 ^ 5 + b4 * 256 ^ 4 + b3 * 256 ^ 3 +
        b2 * 256 ^ 2 + b1 * 256 + b0) =
      b0 * 256 ^ 7 + b1 * 256 ^ 6 + b2 * 256 ^ 5 + b3 * 256 ^ 4 + b4 * 256 ^ 3 +
        b5 * 256 ^ 2 + b6 * 256 + b7 := by
  unfold ntoh64 byteAt
  norm_num
  omega

/-- C10: each byte-swap primitive is an involution on values of its width:
applying ntoh16, ntoh32 or ntoh64 twice returns the original bit pattern. -/
theorem claim_C10_bswap_involution :
    (∀ v, v < 2 ^ 16 → ntoh16 (ntoh16 v) = v) ∧
    (∀ v, v < 2 ^ 32 → ntoh32 (ntoh32 v) = v) ∧
    (∀ v, v < 2 ^ 64 → ntoh64 (ntoh64 v) = v) := by
  refine ⟨fun v hv => ?_, fun v hv => ?_, fun v hv => ?_⟩
  · obtain ⟨b0, b1, h0, h1, rfl⟩ :
        ∃ b0 b1, b0 < 256 ∧ b1 < 256 ∧ v = b1 * 256 + b0 :=
      ⟨v % 256, v / 256, by omega, by omega, by omega⟩
    rw [ntoh16_bytes b0 b1 h0 h1, ntoh16_bytes b1 b0 h1 h0]
  · obtain ⟨b0, b1, b2, b3, h0, h1, h2, h3, rfl⟩ :
        ∃ b0 b1 b2 b3, b0 < 256 ∧ b1 < 256 ∧ b2 < 256 ∧ b3 < 256 ∧
          v = b3 * 256 ^ 3 + b2 * 256 ^ 2 + b1 * 256 + b0 :=
      ⟨v % 256, v / 256 % 256, v / 256 ^ 2 % 256, v / 256 ^ 3,
        by omega, by omega, by omega, by omega, by omega⟩
    rw [ntoh32_bytes b0 b1 b2 b3 h0 h1 h2 h3, ntoh32_bytes b3 b2 b1 b0 h3 h2 h1 h0]
  · obtain ⟨b0, b1, b2, b3, b4, b5, b6, b7, h0, h1, h2, h3, h4, h5, h6, h7, rfl⟩ :
        ∃ b0 b1 b2 b3 b4 b5 b6 b7, b0 < 256 ∧ b1 < 256 ∧ b2 < 256 ∧ b3 < 256 ∧
          b4 < 256 ∧ b5 < 256 ∧ b6 < 256 ∧ b7 < 256 ∧
          v = b7 * 256 ^ 7 + b6 * 256 ^ 6 + b5 * 256 ^ 5 + b4 * 256 ^ 4 +
              b3 * 256 ^ 3 + b2 * 256 ^ 2 + b1 * 256 + b0 :=
      ⟨v % 256, v / 256 % 256, v / 256 ^ 2 % 256, v / 256 ^ 3 % 256, v / 256 ^ 4 % 256,
        v / 256 ^ 5 % 256, v / 256 ^ 6 % 256, v / 256 ^ 7, by omega, by omega, by omega,
        by omega, by omega, by omega, by omega, by omega, by omega⟩
    rw [ntoh64_bytes b0 b1 b2 b3 b4 b5 b6 b7 h0 h1 h2 h3 h4 h5 h6 h7,
      ntoh64_bytes b7 b6 b5 b4 b3 b2 b1 b0 h7 h6 h5 h4 h3 h2 h1 h0]

/-- Witness for C10 at concrete bit patterns. -/
theorem claim_C10_bswap_involution_witness :
    ntoh16 (ntoh16 43981) = 43981 ∧ ntoh32 (ntoh32 305419896) = 305419896 ∧
    ntoh64 (ntoh64 81985529216486895) = 81985529216486895 :=
  ⟨claim_C10_bswap_involution.1 43981 (by norm_num),
   claim_C10_bswap_involution.2.1 305419896 (by norm_num),
   claim_C10_bswap_involution.2.2 81985529216486895 (by norm_num)⟩


/-- C1 is contradicted by the code: the decoder accepts a frame of tag t
exactly when the length equals sizeof of the corresponding packed struct,
and those sizeof values are 38, 33, 38, 25, 21, 37, 46, 14, 41 rather than
the 36, 31, 36, 23, 19, 35, 44, 12, 39 of the claim (the structs carry an
8-byte timestamp where the ITCH 5.0 wire format has 6 bytes).  At the
claimed width 36 an AddOrder frame is rejected, while width 38 is accepted;
a SystemEvent frame is rejected at 12 and accepted at 14. -/
theorem claim_C1_per_tag_widths :
    ITCHParser.parse 0 (tagOnly 65) 36 = none ∧
    (ITCHParser.parse 0 (tagOnly 65) 38).isSome = true ∧
    ITCHParser.parse 0 (tagOnly 83) 12 = none ∧
    (ITCHParser.parse 0 (tagOnly 83) 14).isSome = true ∧
    [sizeofAddOrderMessage, sizeofExecuteOrderMessage,
     sizeofExecuteOrderWithPriceMessage, sizeofOrderCancelMessage,
     sizeofOrderDeleteMessage, sizeofOrderReplaceMessage, sizeofTradeMessage,
     sizeofSystemEventMessage, sizeofStockDirectoryMessage] =
      [38, 33, 38, 25, 21, 37, 46, 14, 41] := by
  refine ⟨rfl, rfl, rfl, rfl, rfl⟩

/-- C3 is contradicted by the code: the header guard compares the length
against sizeof(ITCHMessageHeader) = 13, not 15, and a SystemEvent frame of
length 14 < 15 is decoded to a populated record. -/
theorem claim_C3_short_frame :
    sizeofITCHMessageHeader = 13 ∧
    (ITCHParser.parse 0 (fun i => if i = 0 then 83 else 1) 14).isSome = true ∧
    14 < 15 := by
  refine ⟨rfl, rfl, by norm_num⟩

/-- C5: the static_assert accepts capacity 1 (1 and 0 is 0), and on a
capacity-1 queue two consecutive try_enqueue calls with no intervening
dequeue both return true, the second overwriting the slot written by the
first. -/
theorem claim_C5_capacity_one :
    capacity_static_assert 1 = true ∧
    ∃ q1 q2,
      MPMCQueue.try_enqueue 1 (MPMCQueue.new ℕ) 7 = some (true, q1) ∧
      q1.buffer 0 = 7 ∧
      MPMCQueue.try_enqueue 1 q1 8 = some (true, q2) ∧
      q2.buffer 0 = 8 := by
  exact ⟨rfl, _, _, rfl, rfl, rfl, rfl⟩

/-- C7: decoding the well-formed AddOrder frame with the given big-endian
field values yields a present record of type A whose host-order fields are
exactly the given values; the extracted symbol is AAPL and the fixed-point
price denotes 150. -/
theorem claim_C7_add_order_round_trip :
    ITCHParser.parse 0 (fun i => frameA.getD i 0) sizeofAddOrderMessage =
      some { type := MessageType.ADD_ORDER,
             variant := ParsedVariant.add_order
               { header := { message_type := 65, stock_locate := 123,
                             tracking_number := 456, timestamp := 1234567890 },
                 order_reference_number := 999999,
                 buy_sell_indicator := 66,
                 shares := 100,
                 stock := [65, 65, 80, 76, 32, 32, 32, 32],
                 price := 1500000 },
             parse_timestamp_ns := 0 } ∧
    get_stock_symbol [65, 65, 80, 76, 32, 32, 32, 32] = [65, 65, 80, 76] ∧
    price_to_double 1500000 = 150 := by
  refine ⟨by decide, by decide, by norm_num [price_to_double]⟩

/-- C6: a frame whose first byte is none of the nine recognised tags decodes
to absent at every length; the parser method reads no member state, so the
pure model captures the absence of side effects exactly. -/
theorem claim_C6_unknown_tag (tsc : ℕ) (data : ℕ → ℕ) (length : ℕ)
    (h : data 0 % 256 ∉ knownTags) :
    ITCHParser.parse tsc data length = none := by
  simp only [knownTags, MessageType.ADD_ORDER, MessageType.EXECUTE_ORDER,
    MessageType.EXECUTE_ORDER_WITH_PRICE, MessageType.ORDER_CANCEL,
    MessageType.ORDER_DELETE, MessageType.ORDER_REPLACE, MessageType.TRADE,
    MessageType.SYSTEM_EVENT, MessageType.STOCK_DIRECTORY, List.mem_cons,
    List.not_mem_nil, or_false, not_or] at h
  obtain ⟨h1, h2, h3, h4, h5, h6, h7, h8, h9⟩ := h
  simp [ITCHParser.parse, MessageType.ADD_ORDER, MessageType.EXECUTE_ORDER,
    MessageType.EXECUTE_ORDER_WITH_PRICE, MessageType.ORDER_CANCEL,
    MessageType.ORDER_DELETE, MessageType.ORDER_REPLACE, MessageType.TRADE,
    MessageType.SYSTEM_EVENT, MessageType.STOCK_DIRECTORY,
    h1, h2, h3, h4, h5, h6, h7, h8, h9]

/-- Witness for C6: a frame tagged Z (byte 90) of AddOrder length decodes to
absent. -/
theorem claim_C6_unknown_tag_witness :
    ITCHParser.parse 0 (fun _ => 90) 38 = none :=
  claim_C6_unknown_tag 0 (fun _ => 90) 38 (by decide)

lemma symbolLen_eq_findGreatest (s : List ℕ) (n : ℕ) :
    symbolLen s n = Nat.findGreatest (fun k => s.getD (k - 1) 0 ≠ 32) n := by
  induction n with
  | zero => rfl
  | succ n ih =>
    rw [symbolLen, Nat.findGreatest_succ]
    simp only [Nat.add_sub_cancel]
    by_cases h : s.getD n 0 = 32
    · rw [if_pos h, if_neg (not_not_intro h), ih]
    · rw [if_neg h, if_pos h]

/-- C8: get_stock_symbol computes exactly the spec's longest left-aligned
prefix whose final character is not a space; it is empty on an all-space
field and the whole field when the eighth byte is not a space. -/
theorem claim_C8_symbol_extraction (s : List ℕ) (h : s.length = 8) :
    get_stock_symbol s = spec_symbol s ∧
    ((∀ i, i < 8 → s.getD i 0 = 32) → get_stock_symbol s = []) ∧
    (s.getD 7 0 ≠ 32 → get_stock_symbol s = s) := by
  refine ⟨?_, ?_, ?_⟩
  · unfold get_stock_symbol spec_symbol
    rw [symbolLen_eq_findGreatest]
  · intro hall
    unfold get_stock_symbol
    rw [symbolLen_eq_findGreatest]
    have hz : Nat.findGreatest (fun k => s.getD (k - 1) 0 ≠ 32) 8 = 0 := by
      apply Nat.findGreatest_eq_zero_iff.2
      intro k hk0 hk8 hP
      exact hP (hall (k - 1) (by omega))
    rw [hz]
    simp
  · intro h7
    unfold get_stock_symbol
    rw [symbolLen_eq_findGreatest]
    have h8 : Nat.findGreatest (fun k => s.getD (k - 1) 0 ≠ 32) 8 = 8 :=
      Nat.findGreatest_eq (by simpa using h7)
    rw [h8, ← h, List.take_length]

/-- Witness for C8 at the AAPL field padded with four spaces. -/
theorem claim_C8_symbol_extraction_witness :
    get_stock_symbol [65, 65, 80, 76, 32, 32, 32, 32] =
        spec_symbol [65, 65, 80, 76, 32, 32, 32, 32] ∧
      ((∀ i, i < 8 → [65, 65, 80, 76, 32, 32, 32, 32].getD i 0 = 32) →
        get_stock_symbol [65, 65, 80, 76, 32, 32, 32, 32] = []) ∧
      ([65, 65, 80, 76, 32, 32, 32, 32].getD 7 0 ≠ 32 →
        get_stock_symbol [65, 65, 80, 76, 32, 32, 32, 32] =
          [65, 65, 80, 76, 32, 32, 32, 32]) :=
  claim_C8_symbol_extraction [65, 65, 80, 76, 32, 32, 32, 32] rfl
namespace AsyncLogger

lemma writeBytesAt_nil (f : ℕ → ℕ) (off : ℕ) : writeBytesAt f off [] = f := by
  funext i
  unfold writeBytesAt
  simp only [List.length_nil]
  rw [if_neg (by omega)]

/-- C9: a record whose type byte matches none of the nine handled variants
contributes nothing: its size is 0, its serialisation is empty, and
write_message leaves the writer state (buffer, offset, total_written, sink)
unchanged.  The two bounds are invariants of every reachable writer state:
the buffer offset never exceeds the buffer capacity and the MMAP offset
never exceeds the mapped size. -/
theorem claim_C9_unhandled_type (st : LoggerState) (msg : MessageImage)
    (htype : msg.type ∉ knownTags)
    (hbuf : st.write_buffer.length ≤ BUFFER_SIZE)
    (hmm : st.total_written ≤ st.mmap_size) :
    get_message_size msg = 0 ∧
    serialize_message msg = [] ∧
    write_message st msg = st := by
  simp only [knownTags, MessageType.ADD_ORDER, MessageType.EXECUTE_ORDER,
    MessageType.EXECUTE_ORDER_WITH_PRICE, MessageType.ORDER_CANCEL,
    MessageType.ORDER_DELETE, MessageType.ORDER_REPLACE, MessageType.TRADE,
    MessageType.SYSTEM_EVENT, MessageType.STOCK_DIRECTORY, List.mem_cons,
    List.not_mem_nil, or_false, not_or] at htype
  obtain ⟨h1, h2, h3, h4, h5, h6, h7, h8, h9⟩ := htype
  have hsize : get_message_size msg = 0 := by
    simp [get_message_size, MessageType.ADD_ORDER, MessageType.EXECUTE_ORDER,
      MessageType.EXECUTE_ORDER_WITH_PRICE, MessageType.ORDER_CANCEL,
      MessageType.ORDER_DELETE, MessageType.ORDER_REPLACE, MessageType.TRADE,
      MessageType.SYSTEM_EVENT, MessageType.STOCK_DIRECTORY,
      h1, h2, h3, h4, h5, h6, h7, h8, h9]
  have hser : serialize_message msg = [] := by
    simp [serialize_message, MessageType.ADD_ORDER, MessageType.EXECUTE_ORDER,
      MessageType.EXECUTE_ORDER_WITH_PRICE, MessageType.ORDER_CANCEL,
      MessageType.ORDER_DELETE, MessageType.ORDER_REPLACE, MessageType.TRADE,
      MessageType.SYSTEM_EVENT, MessageType.STOCK_DIRECTORY,
      h1, h2, h3, h4, h5, h6, h7, h8, h9]
  refine ⟨hsize, hser, ?_⟩
  obtain ⟨mode, file, wbuf, mdata, msize, tw⟩ := st
  by_cases hmode : mode = WriteMode.MMAP
  · have hgrow : ¬ tw > msize := by simp_all
    simp [write_message, hsize, hser, hmode, hgrow, writeBytesAt_nil]
  · have hflush : ¬ wbuf.length > BUFFER_SIZE := by simp_all
    simp [write_message, hsize, hser, hmode, hflush]

/-- Witness for C9: a message typed Z (byte 90) on a freshly started
BUFFERED writer. -/
theorem claim_C9_unhandled_type_witness :
    get_message_size ⟨90, fun _ => 0, 0⟩ = 0 ∧
    serialize_message ⟨90, fun _ => 0, 0⟩ = [] ∧
    write_message (initState WriteMode.BUFFERED) ⟨90, fun _ => 0, 0⟩ =
      initState WriteMode.BUFFERED :=
  claim_C9_unhandled_type (initState WriteMode.BUFFERED) ⟨90, fun _ => 0, 0⟩
    (by decide) (by decide) (by decide)

end AsyncLogger

namespace MPMCQueue

lemma mask_lt {m k : ℕ} (hk : k < 2 ^ m) : k &&& (2 ^ m - 1) = k := by
  rw [Nat.and_pow_two_sub_one_eq_mod, Nat.mod_eq_of_lt hk]

lemma mask_self (m : ℕ) : (2 ^ m) &&& (2 ^ m - 1) = 0 := by
  rw [Nat.and_pow_two_sub_one_eq_mod, Nat.mod_self]

lemma try_enqueue_enqState {T : Type} [Inhabited T] (m : ℕ) (zs : List T) (x : T)
    (h : zs.length < 2 ^ m) :
    try_enqueue (2 ^ m) (enqState T zs) x = some (true, enqState T (zs ++ [x])) := by
  have hseq : (fun i => if i = zs.length then zs.length + 1
        else if i < zs.length then i + 1 else i) =
      (fun i => if i < (zs ++ [x]).length then i + 1 else i) := by
    funext i
    simp only [List.length_append, List.length_singleton]
    by_cases h1 : i = zs.length
    · subst h1
      rw [if_pos rfl, if_pos (by omega)]
    · rw [if_neg h1]
      by_cases h2 : i < zs.length
      · rw [if_pos h2, if_pos (by omega)]
      · rw [if_neg h2, if_neg (by omega)]
  have hbuf : (fun i => if i = zs.length then x else zs.getD i default) =
      (fun i => (zs ++ [x]).getD i default) := by
    funext i
    by_cases h1 : i = zs.length
    · subst h1
      rw [if_pos rfl, List.getD_append_right _ _ _ _ (le_refl _)]
      simp
    · rw [if_neg h1]
      by_cases h2 : i < zs.length
      · rw [List.getD_append _ _ _ _ h2]
      · rw [List.getD_eq_default _ _ (by omega),
          List.getD_eq_default _ _ (by simp; omega)]
  unfold try_enqueue enqState
  simp only [mask_lt h, lt_irrefl, if_false, sub_self, if_pos rfl]
  rw [hseq, hbuf]
  simp [List.length_append]

end MPMCQueue

namespace MPMCQueue

lemma enqueueList_enqState {T : Type} [Inhabited T] (m : ℕ) (ys : List T) :
    ∀ zs : List T, zs.length + ys.length ≤ 2 ^ m →
      enqueueList (2 ^ m) ys (enqState T zs) =
        some (List.replicate ys.length true, enqState T (zs ++ ys)) := by
  induction ys with
  | nil => intro zs h; simp [enqueueList]
  | cons y ys ih =>
    intro zs h
    rw [enqueueList, try_enqueue_enqState m zs y (by simp at h; omega)]
    dsimp only
    rw [ih (zs ++ [y]) (by simp at h ⊢; omega)]
    simp [List.replicate_succ, List.append_assoc]

lemma try_enqueue_full {T : Type} [Inhabited T] (m : ℕ) (xs : List T) (x : T)
    (h1 : 1 ≤ m) (hlen : xs.length = 2 ^ m) :
    try_enqueue (2 ^ m) (enqState T xs) x = some (false, enqState T xs) := by
  have hC : 2 ≤ 2 ^ m := by
    calc 2 = 2 ^ 1 := rfl
    _ ≤ 2 ^ m := Nat.pow_le_pow_right (by norm_num) h1
  have hpos : (0 : ℕ) < 2 ^ m := by omega
  unfold try_enqueue enqState
  simp only [hlen, mask_self]
  split_ifs with hd1 hd2
  · exfalso
    omega
  · rfl
  · exfalso
    omega

end MPMCQueue

namespace MPMCQueue

lemma enqState_eq_deqState {T : Type} [Inhabited T] (C : ℕ) (xs : List T) :
    enqState T xs = deqState C T xs 0 := by
  unfold enqState deqState
  simp

lemma try_dequeue_deqState {T : Type} [Inhabited T] (m : ℕ) (xs : List T) (t : ℕ)
    (hlen : xs.length = 2 ^ m) (ht : t < 2 ^ m) :
    try_dequeue (2 ^ m) (deqState (2 ^ m) T xs t) =
      some (some (xs.getD t default), deqState (2 ^ m) T xs (t + 1)) := by
  have hseq : (fun i => if i = t then t + 2 ^ m
        else if i < t then i + 2 ^ m else if i < xs.length then i + 1 else i) =
      (fun i => if i < t + 1 then i + 2 ^ m
        else if i < xs.length then i + 1 else i) := by
    funext i
    by_cases h1 : i = t
    · subst h1
      rw [if_pos rfl, if_pos (by omega)]
    · rw [if_neg h1]
      by_cases h2 : i < t
      · rw [if_pos h2, if_pos (by omega)]
      · rw [if_neg h2, if_neg (show ¬ i < t + 1 by omega)]
  unfold try_dequeue deqState
  simp only [mask_lt ht, lt_irrefl, if_false]
  have hseqval : (if t < xs.length then t + 1 else t) = t + 1 := if_pos (by omega)
  rw [hseqval]
  rw [if_pos (by push_cast; ring)]
  rw [hseq]

lemma dequeueN_deqState {T : Type} [Inhabited T] (m : ℕ) (xs : List T)
    (hlen : xs.length = 2 ^ m) :
    ∀ (n t : ℕ), t + n ≤ 2 ^ m →
      dequeueN (2 ^ m) n (deqState (2 ^ m) T xs t) =
        some ((List.range n).map (fun j => some (xs.getD (t + j) default)),
          deqState (2 ^ m) T xs (t + n)) := by
  intro n
  induction n with
  | zero => intro t h; simp [dequeueN]
  | succ n ih =>
    intro t h
    rw [dequeueN, try_dequeue_deqState m xs t hlen (by omega)]
    dsimp only
    rw [ih (t + 1) (by omega)]
    dsimp only
    rw [List.range_succ_eq_map]
    simp only [List.map_cons, List.map_map, Function.comp_def, Nat.add_zero]
    have h3 : (fun j => some (xs.getD (t + 1 + j) default)) =
        (fun j => some (xs.getD (t + j.succ) default)) := by
      funext j
      congr 2
      omega
    have h4 : t + 1 + n = t + (n + 1) := by omega
    rw [h3, h4]

lemma try_dequeue_empty {T : Type} [Inhabited T] (m : ℕ) (xs : List T) :
    try_dequeue (2 ^ m) (deqState (2 ^ m) T xs (2 ^ m)) =
      some (none, deqState (2 ^ m) T xs (2 ^ m)) := by
  have hpos : (0 : ℕ) < 2 ^ m := pow_pos (by norm_num) m
  unfold try_dequeue deqState
  simp only [mask_self, hpos, if_true, zero_add, if_pos]
  split_ifs with hd1 hd2
  · exfalso
    omega
  · rfl
  · exfalso
    omega

end MPMCQueue

namespace MPMCQueue

lemma range_map_getD {α : Type} [Inhabited α] (xs : List α) :
    (List.range xs.length).map (fun j => some (xs.getD j default)) = xs.map some := by
  apply List.ext_getElem
  · simp
  · intro n h1 h2
    simp only [List.getElem_map, List.getElem_range]
    rw [List.getD_eq_getElem _ _ (by simpa using h2)]

end MPMCQueue

/-- C4: on a queue whose capacity C is any power of two at least 2, used
sequentially: the C enqueues of the items all return true, the (C + 1)-st
enqueue returns false and leaves the queue unchanged, C dequeues then return
exactly the enqueued items in enqueue order, and one further dequeue on the
emptied queue returns false.  The bound m ≤ 62 records that the exact
counter model is faithful only while slot sequence numbers stay below the
intptr_t range, which every constructible queue satisfies. -/
theorem claim_C4_fill_drain {T : Type} [Inhabited T] (m : ℕ) (h1 : 1 ≤ m)
    (hm : m ≤ 62) (items : List T) (hlen : items.length = 2 ^ m) (extra : T) :
    ∃ q1 q2,
      MPMCQueue.enqueueList (2 ^ m) items (MPMCQueue.new T) =
        some (List.replicate (2 ^ m) true, q1) ∧
      MPMCQueue.try_enqueue (2 ^ m) q1 extra = some (false, q1) ∧
      MPMCQueue.dequeueN (2 ^ m) (2 ^ m) q1 = some (items.map some, q2) ∧
      MPMCQueue.try_dequeue (2 ^ m) q2 = some (none, q2) := by
  have hnew : MPMCQueue.new T = MPMCQueue.enqState T [] := by
    unfold MPMCQueue.new MPMCQueue.enqState
    simp
  refine ⟨MPMCQueue.enqState T items,
    MPMCQueue.deqState (2 ^ m) T items (2 ^ m), ?_, ?_, ?_, ?_⟩
  · rw [hnew, MPMCQueue.enqueueList_enqState m items [] (by simp [hlen])]
    simp [hlen]
  · exact MPMCQueue.try_enqueue_full m items extra h1 hlen
  · rw [MPMCQueue.enqState_eq_deqState (2 ^ m) items,
      MPMCQueue.dequeueN_deqState m items hlen (2 ^ m) 0 (by omega)]
    simp only [zero_add]
    rw [← hlen, MPMCQueue.range_map_getD]
  · exact MPMCQueue.try_dequeue_empty m items

/-- Witness for C4 at capacity 4 with items 1, 2, 3, 4 and failed item 5. -/
theorem claim_C4_fill_drain_witness :
    ∃ q1 q2,
      MPMCQueue.enqueueList (2 ^ 2) [1, 2, 3, 4] (MPMCQueue.new ℕ) =
        some (List.replicate (2 ^ 2) true, q1) ∧
      MPMCQueue.try_enqueue (2 ^ 2) q1 5 = some (false, q1) ∧
      MPMCQueue.dequeueN (2 ^ 2) (2 ^ 2) q1 = some ([1, 2, 3, 4].map some, q2) ∧
      MPMCQueue.try_dequeue (2 ^ 2) q2 = some (none, q2) :=
  claim_C4_fill_drain 2 (by norm_num) (by norm_num) [1, 2, 3, 4] (by decide) 5

namespace AsyncLogger

lemma serialize_message_length (msg : MessageImage) :
    (serialize_message msg).length = get_message_size msg := by
  unfold serialize_message get_message_size
  split_ifs <;> simp [readBytes]

lemma foldl_write_message_buffered (msgs : List MessageImage) :
    ∀ st : LoggerState, st.write_mode = WriteMode.BUFFERED →
      st.write_buffer.length + (msgs.map get_message_size).sum ≤ BUFFER_SIZE →
      msgs.foldl write_message st =
        { st with write_buffer :=
            st.write_buffer ++ msgs.flatMap serialize_message } := by
  induction msgs with
  | nil => intro st hmode hb; simp
  | cons msg msgs ih =>
    intro st hmode hb
    simp only [List.map_cons, List.sum_cons] at hb
    have hc1 : ¬ st.write_mode = WriteMode.MMAP := by simp [hmode]
    have hc2 : ¬ st.write_buffer.length + get_message_size msg > BUFFER_SIZE := by
      omega
    rw [List.foldl_cons]
    have hstep : write_message st msg =
        { st with write_buffer := st.write_buffer ++ serialize_message msg } := by
      simp only [write_message, hc1, if_false, hc2, ite_false]
    rw [hstep, ih _ (by simpa using hmode)
      (by simp only [List.length_append, serialize_message_length]; omega)]
    simp [List.append_assoc]

lemma writer_run_file (msgs : List MessageImage)
    (hsum : (msgs.map get_message_size).sum ≤ BUFFER_SIZE) :
    (writer_run msgs).file = msgs.flatMap serialize_message ∧
    (writer_run msgs).total_written = (msgs.flatMap serialize_message).length := by
  unfold writer_run
  rw [foldl_write_message_buffered msgs (initState WriteMode.BUFFERED) rfl
    (by simpa [initState] using hsum)]
  simp only [initState, List.nil_append]
  unfold flush
  split_ifs with h0
  · have hnil : msgs.flatMap serialize_message = [] := List.length_eq_zero.1 h0
    rw [hnil]
    exact ⟨rfl, rfl⟩
  · exact ⟨by simp, by simp⟩

lemma serialize_mkA : serialize_message mkA = List.replicate 38 65 := by decide

lemma serialize_mkP : serialize_message mkP = List.replicate 46 80 := by decide

lemma demo_length (n : ℕ) : (demoMsgs n).length = 2 * n := by
  induction n with
  | zero => rfl
  | succ n ih => rw [demoMsgs]; simp [ih]; omega

lemma demo_sum (n : ℕ) : ((demoMsgs n).map get_message_size).sum = 84 * n := by
  induction n with
  | zero => rfl
  | succ n ih =>
    rw [demoMsgs]
    simp only [List.map_cons, List.sum_cons, ih]
    have h1 : get_message_size mkA = 38 := rfl
    have h2 : get_message_size mkP = 46 := rfl
    rw [h1, h2]
    ring

lemma demo_file_length (n : ℕ) :
    ((demoMsgs n).flatMap serialize_message).length = 84 * n := by
  induction n with
  | zero => rfl
  | succ n ih =>
    rw [demoMsgs]
    simp only [List.flatMap_cons, List.length_append, ih, serialize_mkA,
      serialize_mkP, List.length_replicate]
    ring

lemma fileTags_record (b : ℕ) (rest more : List ℕ) (fuel : ℕ)
    (hw : get_message_size ⟨b, fun _ => 0, 0⟩ = rest.length + 1) :
    fileTags (fuel + 1) (b :: (rest ++ more)) = b :: fileTags fuel more := by
  rw [fileTags, hw]
  rw [if_neg (by omega)]
  rw [List.drop_succ_cons, List.drop_left]

lemma demo_fileTags (n : ℕ) :
    fileTags (2 * n) ((demoMsgs n).flatMap serialize_message) = demoTags n := by
  induction n with
  | zero => rfl
  | succ n ih =>
    rw [demoMsgs, demoTags]
    simp only [List.flatMap_cons]
    have hA : serialize_message mkA = 65 :: List.replicate 37 65 := by decide
    have hP : serialize_message mkP = 80 :: List.replicate 45 80 := by decide
    have hfuel : 2 * (n + 1) = (2 * n + 1) + 1 := by ring
    rw [hA, hP, hfuel]
    rw [List.cons_append,
      fileTags_record 65 (List.replicate 37 65)
        (80 :: List.replicate 45 80 ++ (demoMsgs n).flatMap serialize_message)
        (2 * n + 1) (by decide)]
    rw [List.cons_append,
      fileTags_record 80 (List.replicate 45 80)
        ((demoMsgs n).flatMap serialize_message) (2 * n) (by decide)]
    rw [ih]

end AsyncLogger

namespace AsyncLogger

/-- C2 is contradicted by the code: after a BUFFERED run over 1000 records
alternating AddOrder and Trade, the file holds 500 * 38 + 500 * 46 = 42000
bytes, not the claimed 500 * 36 + 500 * 44 = 40000, because the packed
records serialise at 38 and 46 bytes (8-byte timestamp).  The tag walk of
the file does cycle A, P as claimed. -/
theorem claim_C2_buffered_persist :
    (demoMsgs 500).length = 1000 ∧
    (writer_run (demoMsgs 500)).file.length = 42000 ∧
    (writer_run (demoMsgs 500)).total_written = 42000 ∧
    fileTags 1000 (writer_run (demoMsgs 500)).file = demoTags 500 ∧
    (42000 : ℕ) ≠ 40000 := by
  have hsum : ((demoMsgs 500).map get_message_size).sum ≤ BUFFER_SIZE := by
    rw [demo_sum]
    norm_num [BUFFER_SIZE]
  obtain ⟨hfile, htw⟩ := writer_run_file (demoMsgs 500) hsum
  refine ⟨?_, ?_, ?_, ?_, by norm_num⟩
  · rw [demo_length]
  · rw [hfile, demo_file_length]
  · rw [htw, demo_file_length]
  · rw [hfile]
    have h1000 : (1000 : ℕ) = 2 * 500 := by norm_num
    rw [h1000, demo_fileTags]

end AsyncLogger

end fast_market
